import Mathlib

/-!
Verification of the symbolic-graph binding layer in `python/mxnet/symbol.py`.

The Python module is a stateful wrapper over a native engine: Symbol objects
hold handles into a native symbol table, and the wrapper's methods validate
their inputs, marshal them, and call native routines.  We embed the wrapper
shallowly: the native symbol table is an explicit state (`SymState`, a list of
nodes indexed by handle), each wrapper method becomes a Lean function on that
state, Python exceptions become an explicit `PyError` in `Except`, and the
effect of each native routine (which is outside this repository) is modelled
from the specification and marked as such in its doc comment.
-/

set_option autoImplicit false

namespace MxSym

/-- A Python exception raised by the wrapper layer. -/
inductive PyError where
  /-- Python TypeError with its message. -/
  | typeError (msg : String)
  /-- Python ValueError with its message. -/
  | valueError (msg : String)
  /-- Python KeyError with the missing key. -/
  | keyError (key : String)
  /-- Python UnboundLocalError: a local variable referenced before assignment. -/
  | unboundLocal (var : String)
deriving Repr, DecidableEq

/-- A native SymbolHandle: an index into the native symbol table. -/
abbrev Handle := Nat

/-- A tensor shape: an ordered sequence of dimensions. -/
abbrev Shape := List Nat

/-- Modelled from the spec: the native graph node behind a SymbolHandle.  A node
records the operator it applies (if any), the argument names the native
listing reports for it, the inputs attached by composition, and its name. -/
structure SymbolNode where
  op : Option String := none
  arguments : List String := []
  inputs : List (Option String × Handle) := []
  name : Option String := none
deriving Repr, DecidableEq, Inhabited

/-- The native symbol table: node `h` is `nodes[h]`.  Fresh handles are
allocated at the end of the list. -/
structure SymState where
  nodes : List SymbolNode
deriving Repr, DecidableEq

/-- The node a handle refers to. -/
def SymState.nodeAt (st : SymState) (h : Handle) : SymbolNode :=
  st.nodes.getD h default

/-- `Symbol.list_arguments`: the native argument listing of the node, modelled
from the spec as the node's stored argument-name list. -/
def SymState.listArguments (st : SymState) (h : Handle) : List String :=
  (st.nodeAt h).arguments

/-- `Symbol.__deepcopy__`: `MXSymbolCopy` allocates a fresh handle holding a
copy of the node, leaving every existing node untouched. -/
def deepcopy (st : SymState) (h : Handle) : SymState × Handle :=
  (⟨st.nodes ++ [st.nodeAt h]⟩, st.nodes.length)

/-- A Python value supplied as a composition input or operand. -/
inductive Value where
  /-- a Symbol, i.e. a wrapper object holding a native handle -/
  | symbol (h : Handle)
  /-- a Python int -/
  | int (n : Int)
  /-- a Python str -/
  | str (s : String)
deriving Repr, DecidableEq

/-- Whether the value is a Symbol (`isinstance(v, Symbol)`). -/
def Value.isSymbol : Value → Bool
  | .symbol _ => true
  | _ => false

/-- The name of the value's Python type, used in TypeError messages. -/
def Value.typeName : Value → String
  | .symbol _ => "Symbol"
  | .int _ => "int"
  | .str _ => "str"

/-- The type checks of `Symbol._compose`: every input must be a Symbol; the
first non-Symbol raises TypeError.  On success, returns the native handles. -/
def symbolHandles : List Value → Except PyError (List Handle)
  | [] => .ok []
  | v :: rest =>
    match v with
    | .symbol h =>
      match symbolHandles rest with
      | .ok hs => .ok (h :: hs)
      | .error e => .error e
    | _ => .error (.typeError "Compose expect Symbol as arguments")

/-- Modelled from the spec: the native `MXSymbolCompose` mutates only the node
being composed, attaching the given (optionally keyed) inputs and name. -/
def composeNode (node : SymbolNode) (name : Option String)
    (ins : List (Option String × Handle)) : SymbolNode :=
  { node with name := name, inputs := node.inputs ++ ins }

/-- `Symbol._compose`: validates that positional and keyword inputs are not
mixed and that every input is a Symbol, then composes the node at `h` in
place.  `name` is the popped `name` keyword argument. -/
def Symbol.compose (st : SymState) (h : Handle) (args : List Value)
    (kwargs : List (String × Value)) (name : Option String) :
    Except PyError SymState :=
  if args.length ≠ 0 ∧ kwargs.length ≠ 0 then
    .error (.typeError
      "compose only accept input Symbols either as positional or keyword arguments, not both")
  else
    match symbolHandles args with
    | .error e => .error e
    | .ok ahs =>
      match symbolHandles (kwargs.map (fun p => p.2)) with
      | .error e => .error e
      | .ok khs =>
        let ins :=
          if kwargs.length ≠ 0 then
            (kwargs.map (fun p => (some p.1 : Option String))).zip khs
          else
            ahs.map (fun a => ((none : Option String), a))
        .ok ⟨st.nodes.set h (composeNode (st.nodeAt h) name ins)⟩

/-- `Symbol.__call__`: deep-copy the symbol, compose the copy with the given
inputs, and return the copy's handle.  The allocation performed by the copy
persists even when composition raises, matching the Python control flow. -/
def Symbol.call (st : SymState) (h : Handle) (args : List Value)
    (kwargs : List (String × Value)) (name : Option String) :
    SymState × Except PyError Handle :=
  let c := deepcopy st h
  match Symbol.compose c.1 c.2 args kwargs name with
  | .ok st2 => (st2, .ok c.2)
  | .error e => (c.1, .error e)

/-- Modelled from the spec: `MXSymbolCreateAtomicSymbol` yields a fresh,
uncomposed operator node for the named atomic operator. -/
def createAtomicNode (opName : String) : SymbolNode :=
  { op := some opName }

/-- The `creator` closure produced by `_make_atomic_symbol_function`,
specialised to an atomic binary operator applied to two positional Symbol
inputs: create the atomic symbol at a fresh handle, then compose it. -/
def creatorBinary (opName : String) (st : SymState) (lhs rhs : Handle) :
    Except PyError (SymState × Handle) :=
  let h := st.nodes.length
  let st1 : SymState := ⟨st.nodes ++ [createAtomicNode opName]⟩
  match Symbol.compose st1 h [Value.symbol lhs, Value.symbol rhs] [] none with
  | .ok st2 => .ok (st2, h)
  | .error e => .error e

/-- `Symbol.__add__`: between Symbols, compose the atomic `_Plus` operator;
with any other operand, raise TypeError. -/
def Symbol.add (st : SymState) (h : Handle) (other : Value) :
    Except PyError (SymState × Handle) :=
  match other with
  | .symbol h2 => creatorBinary "_Plus" st h h2
  | v => .error (.typeError ("type " ++ v.typeName ++ " not supported"))

/-- `Symbol.__radd__`: delegates to `__add__`. -/
def Symbol.radd (st : SymState) (h : Handle) (other : Value) :
    Except PyError (SymState × Handle) :=
  Symbol.add st h other

/-- `Symbol.__sub__`: between Symbols, compose the atomic `_Minus` operator;
with any other operand, raise TypeError. -/
def Symbol.sub (st : SymState) (h : Handle) (other : Value) :
    Except PyError (SymState × Handle) :=
  match other with
  | .symbol h2 => creatorBinary "_Minus" st h h2
  | v => .error (.typeError ("type " ++ v.typeName ++ " not supported"))

/-- `Symbol.__mul__`: between Symbols, compose the atomic `_Mul` operator;
with any other operand, raise TypeError. -/
def Symbol.mul (st : SymState) (h : Handle) (other : Value) :
    Except PyError (SymState × Handle) :=
  match other with
  | .symbol h2 => creatorBinary "_Mul" st h h2
  | v => .error (.typeError ("type " ++ v.typeName ++ " not supported"))

/-- `Symbol.__rmul__`: delegates to `__mul__`. -/
def Symbol.rmul (st : SymState) (h : Handle) (other : Value) :
    Except PyError (SymState × Handle) :=
  Symbol.mul st h other

/-- `Symbol.__div__`: between Symbols, compose the atomic `_Div` operator;
with any other operand, raise TypeError. -/
def Symbol.div (st : SymState) (h : Handle) (other : Value) :
    Except PyError (SymState × Handle) :=
  match other with
  | .symbol h2 => creatorBinary "_Div" st h h2
  | v => .error (.typeError ("type " ++ v.typeName ++ " not supported"))

/-- `Symbol.__truediv__`: delegates to `__div__`. -/
def Symbol.truediv (st : SymState) (h : Handle) (other : Value) :
    Except PyError (SymState × Handle) :=
  Symbol.div st h other

/-! ## Binding: NArray storage resolution and `Symbol.bind` -/

/-- Modelled from the spec: an NArray is a storage buffer carrying a shape;
the wrapper only ever reads its handle and its shape. -/
structure NArray where
  shape : Shape
deriving Repr, DecidableEq, Inhabited

/-- A Python value supplied where an NArray is expected. -/
inductive PyVal where
  /-- an actual NArray -/
  | narray (a : NArray)
  /-- a value of any other Python type, identified by its type name -/
  | other (tag : String)
deriving Repr, DecidableEq

/-- A Python value supplied as the `args`, `args_grad` or `aux_states`
argument of `bind`: a list, a dict, or something else entirely. -/
inductive NArrayInput where
  /-- a Python list of values -/
  | list (xs : List PyVal)
  /-- a Python dict from name to value -/
  | dict (xs : List (String × PyVal))
  /-- a value of any other Python type -/
  | other (tag : String)
deriving Repr, DecidableEq

/-- Python `len` of the container (only ever applied to lists and dicts). -/
def NArrayInput.len : NArrayInput → Nat
  | .list xs => xs.length
  | .dict xs => xs.length
  | .other _ => 0

/-- Python dict indexing: the value stored under the key, if any. -/
def dlookup {α : Type} (xs : List (String × α)) (k : String) : Option α :=
  (xs.find? (fun p => p.1 == k)).map (fun p => p.2)

/-- `Symbol._get_narray_handle`, exactly as written — including the slip in
the dict branch, whose guard tests `name in arg_names` (always true for a
name drawn from `arg_names`) instead of `name in args`, so a missing dict
entry raises KeyError and the `allow_missing` / "Must specify all the
arguments" branches are unreachable. -/
def getNArrayHandle (argKey : String) (args : NArrayInput)
    (argNames : List String) (allowMissing : Bool) :
    Except PyError (List (Option NArray)) :=
  match args with
  | .list xs =>
    if xs.length ≠ argNames.length then
      .error (.valueError ("Length of " ++ argKey ++ " do not match number of arguments"))
    else
      xs.mapM fun v =>
        match v with
        | .narray a => .ok (some a)
        | .other _ => .error (.typeError "Only Accept list of NArrays or dict of str->NArray")
  | .dict m =>
    argNames.mapM fun nm =>
      if nm ∈ argNames then
        match dlookup m nm with
        | none => .error (.keyError nm)
        | some (.narray a) => .ok (some a)
        | some (.other _) =>
          .error (.typeError "Only Accept list of NArrays or dict of str->NArray")
      else if allowMissing then
        .ok none
      else
        .error (.valueError ("Must specify all the arguments in " ++ argKey))
  | .other _ => .error (.typeError "Only Accept list of NArrays or dict of str->NArray")

/-- A device context (from `mxnet.context`). -/
structure Context where
  deviceMask : Nat
  deviceId : Nat
deriving Repr, DecidableEq

/-- The `ctx` argument of `bind`: a Context, or a value of any other type. -/
inductive CtxInput where
  /-- an actual Context -/
  | ctx (c : Context)
  /-- a value of any other Python type -/
  | other (tag : String)
deriving Repr, DecidableEq

/-- The `grad_req` argument of `bind`: a string, a list of strings, a dict
from name to string, or something else entirely. -/
inductive GradReq where
  /-- a single policy token -/
  | str (s : String)
  /-- an ordered sequence of per-argument policy tokens -/
  | list (xs : List String)
  /-- a mapping from argument name to policy token -/
  | dict (xs : List (String × String))
  /-- a value of any other Python type -/
  | other (tag : String)
deriving Repr, DecidableEq

/-- The `req_map` table of `bind`: null is 0, write is 1, add is 3. -/
def reqMap (s : String) : Option Nat :=
  if s = "null" then some 0
  else if s = "write" then some 1
  else if s = "add" then some 3
  else none

/-- The grad_req setup of `Symbol.bind`, exactly as written.  The string form
is validated against `req_map`; the list form indexes `req_map` per item with
no length check (an invalid token raises KeyError); the dict form computes a
per-argument list into `req_array` (omitted names default to 0) but the native
call then reads the never-assigned local `reqs_array`, raising
UnboundLocalError — as does any `grad_req` of an unhandled type. -/
def resolveGradReq (argNames : List String) (gr : GradReq) :
    Except PyError (List Nat) :=
  match gr with
  | .str s =>
    match reqMap s with
    | none => .error (.valueError "grad_req must be in req_map")
    | some v => .ok (List.replicate argNames.length v)
  | .list xs =>
    xs.mapM fun item =>
      match reqMap item with
      | some v => .ok v
      | none => .error (.keyError item)
  | .dict m =>
    let reqArray : Except PyError (List Nat) :=
      argNames.mapM fun nm =>
        match dlookup m nm with
        | some tok =>
          match reqMap tok with
          | some v => .ok v
          | none => .error (.keyError tok)
        | none => .ok 0
    match reqArray with
    | .error e => .error e
    | .ok _ => .error (.unboundLocal "reqs_array")
  | .other _ => .error (.unboundLocal "reqs_array")

/-- The args_grad setup of `Symbol.bind`: when `args_grad` is None the native
call receives a null handle per element of `args`; otherwise the handles are
resolved with `allow_missing = True`. -/
def resolveArgsGrad (argNames : List String) (argsLen : Nat)
    (argsGrad : Option NArrayInput) : Except PyError (List (Option NArray)) :=
  match argsGrad with
  | none => .ok (List.replicate argsLen none)
  | some g => getNArrayHandle "args_grad" g argNames true

/-- The native listing results for a symbol: its argument names and its
auxiliary-state names, as returned by `list_arguments` and
`list_auxiliary_states`. -/
structure SymInfo where
  argNames : List String
  auxNames : List String
deriving Repr, DecidableEq

/-- The Executor built by `bind`: the data handed to `MXExecutorBind` plus the
narray references the wrapper attaches to the executor afterwards. -/
structure Executor where
  deviceMask : Nat
  deviceId : Nat
  argHandles : List (Option NArray)
  gradHandles : List (Option NArray)
  reqs : List Nat
  auxHandles : List (Option NArray)
  argNarrays : NArrayInput
  gradNarrays : Option NArrayInput
  auxiliaryStates : NArrayInput
deriving Repr, DecidableEq

/-- `Symbol.bind`: check the context type, resolve `args` (all required),
`args_grad` (missing allowed), and `aux_states` (None defaults to the empty
list, all required), resolve `grad_req`, then call the native bind and attach
the narrays to the resulting Executor. -/
def Symbol.bind (s : SymInfo) (ctx : CtxInput) (args : NArrayInput)
    (argsGrad : Option NArrayInput) (gradReq : GradReq)
    (auxStates : Option NArrayInput) : Except PyError Executor :=
  match ctx with
  | .other _ => .error (.typeError "Context type error")
  | .ctx c =>
    match getNArrayHandle "args" args s.argNames false with
    | .error e => .error e
    | .ok argsHandle =>
      match resolveArgsGrad s.argNames args.len argsGrad with
      | .error e => .error e
      | .ok argsGradHandle =>
        let aux := auxStates.getD (.list [])
        match getNArrayHandle "aux_states" aux s.auxNames false with
        | .error e => .error e
        | .ok auxHandle =>
          match resolveGradReq s.argNames gradReq with
          | .error e => .error e
          | .ok reqs =>
            .ok { deviceMask := c.deviceMask, deviceId := c.deviceId,
                  argHandles := argsHandle, gradHandles := argsGradHandle,
                  reqs := reqs, auxHandles := auxHandle,
                  argNarrays := args, gradNarrays := argsGrad,
                  auxiliaryStates := aux }

/-! ## Shape inference and `simple_bind` -/

/-- The outcome of the one native `MXSymbolInferShape` call a wrapper call
makes: either fully determined shapes with the complete flag set, or the
incomplete flag. -/
inductive NativeInferOut where
  /-- inference succeeded: argument, output and auxiliary shapes -/
  | complete (argShapes outShapes auxShapes : List Shape)
  /-- inference had insufficient information -/
  | incomplete
deriving Repr, DecidableEq

/-- `Symbol.infer_shape`: rejects mixing positional and keyword shapes, then
returns the native shapes when the complete flag is set and the sentinel
`none` (Python `(None, None, None)`) otherwise. -/
def Symbol.infer_shape (native : NativeInferOut) (sargs : List (Option Shape))
    (skwargs : List (String × Shape)) :
    Except PyError (Option (List Shape × List Shape × List Shape)) :=
  if sargs.length ≠ 0 ∧ skwargs.length ≠ 0 then
    .error (.valueError "Can only specify known argument shapes either by positional or kwargs way.")
  else
    match native with
    | .complete a o x => .ok (some (a, o, x))
    | .incomplete => .ok none

/-- Modelled from the spec: `zeros` allocates fresh zero-initialised storage
of the given shape on the given context. -/
def zeros (shape : Shape) (_c : Context) : NArray :=
  { shape := shape }

/-- `Symbol.simple_bind`: infer shapes from the shapes of the supplied named
storage; raise ValueError when inference is incomplete; otherwise reuse the
supplied narrays, allocate zeros for every other argument, every gradient and
every auxiliary state, and delegate to `bind`. -/
def Symbol.simple_bind (s : SymInfo) (native : NativeInferOut) (c : Context)
    (gradReq : GradReq) (kwargs : List (String × NArray)) :
    Except PyError Executor :=
  let inputShapes := kwargs.map fun p => (p.1, p.2.shape)
  match Symbol.infer_shape native [] inputShapes with
  | .error e => .error e
  | .ok none => .error (.valueError "Input node is not complete")
  | .ok (some (argShapes, _outShapes, auxShapes)) =>
    let argNarrays := (s.argNames.zip argShapes).map fun p =>
      match dlookup kwargs p.1 with
      | some a => a
      | none => zeros p.2 c
    let gradNarrays := argShapes.map fun sh => zeros sh c
    let auxNarrays := auxShapes.map fun sh => zeros sh c
    Symbol.bind s (.ctx c) (.list (argNarrays.map PyVal.narray))
      (some (.list (gradNarrays.map PyVal.narray))) gradReq
      (some (.list (auxNarrays.map PyVal.narray)))

/-! ## Helper lemmas about the symbol table -/

theorem nodeAt_mk_append_left (l : List SymbolNode) (x : SymbolNode) (g : Nat)
    (hg : g < l.length) :
    SymState.nodeAt ⟨l ++ [x]⟩ g = SymState.nodeAt ⟨l⟩ g := by
  simp only [SymState.nodeAt, List.getD_eq_getElem?_getD,
    List.getElem?_append_left hg]

theorem nodeAt_mk_concat_length (l : List SymbolNode) (x : SymbolNode) :
    SymState.nodeAt ⟨l ++ [x]⟩ l.length = x := by
  simp only [SymState.nodeAt, List.getD_eq_getElem?_getD,
    List.getElem?_concat_length, Option.getD_some]

theorem nodeAt_mk_set_ne (l : List SymbolNode) (i g : Nat) (y : SymbolNode)
    (hne : i ≠ g) :
    SymState.nodeAt ⟨l.set i y⟩ g = SymState.nodeAt ⟨l⟩ g := by
  simp only [SymState.nodeAt, List.getD_eq_getElem?_getD,
    List.getElem?_set_ne hne]

theorem nodeAt_mk_set_self (l : List SymbolNode) (i : Nat) (y : SymbolNode)
    (hi : i < l.length) :
    SymState.nodeAt ⟨l.set i y⟩ i = y := by
  simp only [SymState.nodeAt, List.getD_eq_getElem?_getD,
    List.getElem?_set_self hi, Option.getD_some]

/-- `_compose` only ever writes the node being composed: on success, every
other handle refers to exactly the node it referred to before. -/
theorem compose_frame (st : SymState) (h : Handle) (args : List Value)
    (kwargs : List (String × Value)) (name : Option String) (st' : SymState)
    (hok : Symbol.compose st h args kwargs name = .ok st')
    (g : Handle) (hg : g ≠ h) : st'.nodeAt g = st.nodeAt g := by
  unfold Symbol.compose at hok
  split at hok
  · cases hok
  · cases hsa : symbolHandles args with
    | error e => rw [hsa] at hok; cases hok
    | ok ahs =>
      rw [hsa] at hok
      cases hsk : symbolHandles (kwargs.map fun p => p.2) with
      | error e => rw [hsk] at hok; cases hok
      | ok khs =>
        rw [hsk] at hok
        cases hok
        exact nodeAt_mk_set_ne _ _ _ _ (fun hhg => hg hhg.symm)

/-- Composing two positional Symbol inputs always succeeds and rewrites the
composed node in place. -/
theorem compose_two_symbols (st : SymState) (h a b : Handle) :
    Symbol.compose st h [Value.symbol a, Value.symbol b] [] none =
      .ok ⟨st.nodes.set h
        (composeNode (st.nodeAt h) none [(none, a), (none, b)])⟩ := rfl

/-- The atomic binary creator unfolded: allocate the atomic node, then
compose it in place with the two positional inputs. -/
theorem creatorBinary_eq (opName : String) (st : SymState) (a b : Handle) :
    creatorBinary opName st a b =
      .ok (⟨(st.nodes ++ [createAtomicNode opName]).set st.nodes.length
        (composeNode
          (SymState.nodeAt ⟨st.nodes ++ [createAtomicNode opName]⟩ st.nodes.length)
          none [(none, a), (none, b)])⟩,
        st.nodes.length) := rfl

/-- The atomic binary creator always succeeds on two Symbol operands and
produces a fresh node applying the operator to them. -/
theorem creatorBinary_spec (opName : String) (st : SymState) (a b : Handle) :
    ∃ st' r, creatorBinary opName st a b = .ok (st', r) ∧
      (st'.nodeAt r).op = some opName ∧
      (st'.nodeAt r).inputs = [(none, a), (none, b)] := by
  have hlen : st.nodes.length < (st.nodes ++ [createAtomicNode opName]).length := by
    simp
  refine ⟨⟨(st.nodes ++ [createAtomicNode opName]).set st.nodes.length
      (composeNode (createAtomicNode opName) none [(none, a), (none, b)])⟩,
    st.nodes.length, ?_, ?_, ?_⟩
  · rw [creatorBinary_eq, nodeAt_mk_concat_length]
  · rw [nodeAt_mk_set_self _ _ _ hlen]
    rfl
  · rw [nodeAt_mk_set_self _ _ _ hlen]
    rfl

/-- If some value in the list is not a Symbol, the `_compose` type check
raises TypeError. -/
theorem symbolHandles_of_bad (vals : List Value)
    (hbad : ∃ v ∈ vals, v.isSymbol = false) :
    symbolHandles vals = .error (.typeError "Compose expect Symbol as arguments") := by
  induction vals with
  | nil => simp at hbad
  | cons a tl ih =>
    obtain ⟨v, hv, hvs⟩ := hbad
    rcases List.mem_cons.mp hv with rfl | hmem
    · cases v with
      | symbol k => simp [Value.isSymbol] at hvs
      | int n => rfl
      | str s => rfl
    · cases a with
      | symbol k =>
        show (match symbolHandles tl with
          | .ok hs => Except.ok (k :: hs)
          | .error e => Except.error e) = _
        rw [ih ⟨v, hmem, hvs⟩]
      | int n => rfl
      | str s => rfl

/-- The `_compose` type check either succeeds or raises exactly the TypeError
of a non-Symbol input. -/
theorem symbolHandles_ok_or (vals : List Value) :
    (∃ hs, symbolHandles vals = .ok hs) ∨
      symbolHandles vals = .error (.typeError "Compose expect Symbol as arguments") := by
  induction vals with
  | nil => exact .inl ⟨[], rfl⟩
  | cons a tl ih =>
    cases a with
    | symbol k =>
      rcases ih with ⟨hs, hok⟩ | herr
      · refine .inl ⟨k :: hs, ?_⟩
        show (match symbolHandles tl with
          | .ok hs => Except.ok (k :: hs)
          | .error e => Except.error e) = _
        rw [hok]
      · refine .inr ?_
        show (match symbolHandles tl with
          | .ok hs => Except.ok (k :: hs)
          | .error e => Except.error e) = _
        rw [herr]
    | int n => exact .inr rfl
    | str s => exact .inr rfl

/-- `_compose` raises TypeError whenever positional and keyword inputs are
mixed or some input is not a Symbol. -/
theorem compose_typeError_of_bad (st : SymState) (h : Handle)
    (args : List Value) (kwargs : List (String × Value)) (name : Option String)
    (hbad : (args ≠ [] ∧ kwargs ≠ []) ∨ (∃ v ∈ args, v.isSymbol = false) ∨
      (∃ p ∈ kwargs, p.2.isSymbol = false)) :
    ∃ msg, Symbol.compose st h args kwargs name = .error (.typeError msg) := by
  unfold Symbol.compose
  by_cases hmix : args.length ≠ 0 ∧ kwargs.length ≠ 0
  · rw [if_pos hmix]; exact ⟨_, rfl⟩
  · rw [if_neg hmix]
    rcases hbad with ⟨ha, hk⟩ | hargs | hkw
    · refine absurd ⟨?_, ?_⟩ hmix
      · exact fun h0 => ha (List.length_eq_zero.mp h0)
      · exact fun h0 => hk (List.length_eq_zero.mp h0)
    · rw [symbolHandles_of_bad args hargs]
      exact ⟨_, rfl⟩
    · rcases symbolHandles_ok_or args with ⟨ahs, hok⟩ | herr
      · obtain ⟨p, hp, hps⟩ := hkw
        rw [hok, symbolHandles_of_bad (kwargs.map fun q => q.2)
          ⟨p.2, List.mem_map.mpr ⟨p, hp, rfl⟩, hps⟩]
        exact ⟨_, rfl⟩
      · rw [herr]
        exact ⟨_, rfl⟩

/-! ## Claim theorems -/

/-- C1: invoking a Symbol as a function composes a fresh copy and never
mutates the original: its `list_arguments` is identical before and after,
every pre-existing node of the symbol table is untouched, and only the
freshly allocated copy (the returned handle) reflects the new inputs. -/
theorem call_never_mutates_original (st : SymState) (h : Handle)
    (args : List Value) (kwargs : List (String × Value)) (name : Option String)
    (hh : h < st.nodes.length) :
    SymState.listArguments (Symbol.call st h args kwargs name).1 h =
      st.listArguments h ∧
    (∀ g, g < st.nodes.length →
      SymState.nodeAt (Symbol.call st h args kwargs name).1 g = st.nodeAt g) ∧
    (∀ r, (Symbol.call st h args kwargs name).2 = .ok r →
      r = st.nodes.length) := by
  have frame : ∀ g, g < st.nodes.length →
      SymState.nodeAt (Symbol.call st h args kwargs name).1 g = st.nodeAt g := by
    intro g hg
    unfold Symbol.call deepcopy
    cases hc : Symbol.compose ⟨st.nodes ++ [st.nodeAt h]⟩ st.nodes.length
        args kwargs name with
    | ok st2 =>
      simp only [hc]
      rw [compose_frame _ _ _ _ _ _ hc g (Nat.ne_of_lt hg)]
      exact nodeAt_mk_append_left _ _ _ hg
    | error e =>
      simp only [hc]
      exact nodeAt_mk_append_left _ _ _ hg
  refine ⟨congrArg SymbolNode.arguments (frame h hh), frame, ?_⟩
  intro r hr
  simp only [Symbol.call, deepcopy] at hr
  cases hc : Symbol.compose ⟨st.nodes ++ [st.nodeAt h]⟩ st.nodes.length
      args kwargs name with
  | ok st2 =>
    rw [hc] at hr
    exact (Except.ok.inj hr).symm
  | error e =>
    rw [hc] at hr
    cases hr

theorem call_never_mutates_original_witness :
    0 < (⟨[{ arguments := ["x"] }]⟩ : SymState).nodes.length ∧
    SymState.listArguments
        (Symbol.call ⟨[{ arguments := ["x"] }]⟩ 0 [Value.symbol 0] [] none).1 0 =
      SymState.listArguments ⟨[{ arguments := ["x"] }]⟩ 0 :=
  ⟨by decide,
    (call_never_mutates_original ⟨[{ arguments := ["x"] }]⟩ 0 [Value.symbol 0]
      [] none (by decide)).1⟩

/-- C8: composition (directly via `_compose`, or via invocation through
`__call__`) raises TypeError when positional and keyword inputs are both
supplied or when any supplied input is not a Symbol, and in either failure
case no composition takes place: `_compose` returns no new state, and after
a failed invocation every pre-existing node is unchanged. -/
theorem compose_rejects_invalid_inputs (st : SymState) (h : Handle)
    (args : List Value) (kwargs : List (String × Value)) (name : Option String)
    (hbad : (args ≠ [] ∧ kwargs ≠ []) ∨ (∃ v ∈ args, v.isSymbol = false) ∨
      (∃ p ∈ kwargs, p.2.isSymbol = false)) :
    (∃ msg, Symbol.compose st h args kwargs name = .error (.typeError msg)) ∧
    (∃ msg, (Symbol.call st h args kwargs name).2 = .error (.typeError msg)) ∧
    (∀ g, g < st.nodes.length →
      SymState.nodeAt (Symbol.call st h args kwargs name).1 g = st.nodeAt g) := by
  obtain ⟨m2, hm2⟩ := compose_typeError_of_bad ⟨st.nodes ++ [st.nodeAt h]⟩
    st.nodes.length args kwargs name hbad
  refine ⟨compose_typeError_of_bad st h args kwargs name hbad, ⟨m2, ?_⟩, ?_⟩
  · unfold Symbol.call deepcopy
    simp only [hm2]
  · intro g hg
    unfold Symbol.call deepcopy
    simp only [hm2]
    exact nodeAt_mk_append_left _ _ _ hg

theorem compose_rejects_invalid_inputs_witness :
    (Value.int 3).isSymbol = false ∧
    (∃ msg, Symbol.compose ⟨[{ arguments := ["x"] }]⟩ 0 [Value.int 3] [] none =
      .error (.typeError msg)) :=
  ⟨rfl, (compose_rejects_invalid_inputs ⟨[{ arguments := ["x"] }]⟩ 0
    [Value.int 3] [] none (Or.inr (Or.inl ⟨Value.int 3, by simp, rfl⟩))).1⟩

/-- C9: each binary arithmetic operator defined on Symbol — `__add__`,
`__radd__`, `__sub__`, `__mul__`, `__rmul__`, `__div__`, `__truediv__` —
raises TypeError on a non-Symbol operand (no implicit coercion), while
between two Symbols it composes a fresh node applying the corresponding
atomic binary operator to the two operands. -/
theorem arithmetic_ops_no_coercion (st : SymState) (h : Handle) (v : Value)
    (h2 : Handle) (hv : v.isSymbol = false) :
    (Symbol.add st h v =
        .error (.typeError ("type " ++ v.typeName ++ " not supported")) ∧
     Symbol.radd st h v =
        .error (.typeError ("type " ++ v.typeName ++ " not supported")) ∧
     Symbol.sub st h v =
        .error (.typeError ("type " ++ v.typeName ++ " not supported")) ∧
     Symbol.mul st h v =
        .error (.typeError ("type " ++ v.typeName ++ " not supported")) ∧
     Symbol.rmul st h v =
        .error (.typeError ("type " ++ v.typeName ++ " not supported")) ∧
     Symbol.div st h v =
        .error (.typeError ("type " ++ v.typeName ++ " not supported")) ∧
     Symbol.truediv st h v =
        .error (.typeError ("type " ++ v.typeName ++ " not supported"))) ∧
    ((∃ st' r, Symbol.add st h (.symbol h2) = .ok (st', r) ∧
        (st'.nodeAt r).op = some "_Plus" ∧
        (st'.nodeAt r).inputs = [(none, h), (none, h2)]) ∧
     (∃ st' r, Symbol.sub st h (.symbol h2) = .ok (st', r) ∧
        (st'.nodeAt r).op = some "_Minus" ∧
        (st'.nodeAt r).inputs = [(none, h), (none, h2)]) ∧
     (∃ st' r, Symbol.mul st h (.symbol h2) = .ok (st', r) ∧
        (st'.nodeAt r).op = some "_Mul" ∧
        (st'.nodeAt r).inputs = [(none, h), (none, h2)]) ∧
     (∃ st' r, Symbol.div st h (.symbol h2) = .ok (st', r) ∧
        (st'.nodeAt r).op = some "_Div" ∧
        (st'.nodeAt r).inputs = [(none, h), (none, h2)])) := by
  constructor
  · cases v with
    | symbol k => simp [Value.isSymbol] at hv
    | int n => exact ⟨rfl, rfl, rfl, rfl, rfl, rfl, rfl⟩
    | str s => exact ⟨rfl, rfl, rfl, rfl, rfl, rfl, rfl⟩
  · exact ⟨creatorBinary_spec "_Plus" st h h2, creatorBinary_spec "_Minus" st h h2,
      creatorBinary_spec "_Mul" st h h2, creatorBinary_spec "_Div" st h h2⟩

theorem arithmetic_ops_no_coercion_witness :
    (Value.int 5).isSymbol = false ∧
    Symbol.add ⟨[{ arguments := ["x"] }]⟩ 0 (Value.int 5) =
      .error (.typeError ("type " ++ (Value.int 5).typeName ++ " not supported")) :=
  ⟨rfl, (arithmetic_ops_no_coercion ⟨[{ arguments := ["x"] }]⟩ 0 (Value.int 5)
    0 rfl).1.1⟩

/-- C2: the claim says `bind` with `grad_req` given as a mapping that omits
some argument names assigns the null policy to the omitted names and returns
an Executor.  The code instead raises UnboundLocalError for every dict-valued
`grad_req`: the dict branch stores the per-argument requirements in a local
named `req_array`, but the native call reads the never-assigned local
`reqs_array`.  Evaluated here on a two-argument graph with the mapping
naming only the first argument. -/
theorem bind_gradreq_dict_unbound_local :
    Symbol.bind ⟨["a", "b"], []⟩ (.ctx ⟨1, 0⟩)
      (.list [.narray ⟨[2, 2]⟩, .narray ⟨[2, 2]⟩]) none
      (.dict [("a", "write")]) none = .error (.unboundLocal "reqs_array") := rfl

/-- C3: the claim says `bind` with `args_grad` as a mapping naming only a
strict subset of the arguments is accepted, the unnamed arguments being
treated as no-gradient.  The code instead raises KeyError on the first
unnamed argument, because `_get_narray_handle` tests `name in arg_names`
(always true) instead of `name in args`, making the `allow_missing` branch
unreachable.  Evaluated on a two-argument graph with `args_grad` naming
only "a": the call fails with KeyError "b". -/
theorem bind_args_grad_partial_keyerror :
    Symbol.bind ⟨["a", "b"], []⟩ (.ctx ⟨1, 0⟩)
      (.list [.narray ⟨[2, 2]⟩, .narray ⟨[2, 2]⟩])
      (some (.dict [("a", .narray ⟨[2, 2]⟩)])) (.str "write") none =
      .error (.keyError "b") := rfl

/-- C4: the claim says `bind` with `args` as a mapping lacking an entry for
some argument name fails with the MissingArgument ValueError ("Must specify
all the arguments in args") and not some other exception.  Because of the
same `name in arg_names` slip, the code raises KeyError for the missing name
instead; the ValueError branch is dead code.  Evaluated on a two-argument
graph with `args` naming only "a". -/
theorem bind_args_dict_missing_keyerror :
    Symbol.bind ⟨["a", "b"], []⟩ (.ctx ⟨1, 0⟩)
      (.dict [("a", .narray ⟨[2, 2]⟩)]) none (.str "write") none =
      .error (.keyError "b") := rfl

/-- C5: the claim says `bind` with `grad_req` as a sequence whose length
differs from the argument count fails with an InvalidArgument error before
the native bind.  The code performs no length validation in the list branch:
on a two-argument graph with a one-element `grad_req` list it builds a
one-element requirement array and reaches the native bind successfully. -/
theorem bind_gradreq_list_unchecked :
    Symbol.bind ⟨["a", "b"], []⟩ (.ctx ⟨1, 0⟩)
      (.list [.narray ⟨[2, 2]⟩, .narray ⟨[2, 2]⟩]) none
      (.list ["write"]) none =
      .ok { deviceMask := 1, deviceId := 0,
            argHandles := [some ⟨[2, 2]⟩, some ⟨[2, 2]⟩],
            gradHandles := [none, none], reqs := [1], auxHandles := [],
            argNarrays := .list [.narray ⟨[2, 2]⟩, .narray ⟨[2, 2]⟩],
            gradNarrays := none, auxiliaryStates := .list [] } := rfl

/-- C6: when the native shape inference reports incompleteness,
`infer_shape` returns the sentinel `(None, None, None)` without raising,
whereas `simple_bind` under the same incompleteness raises the hard
ValueError "Input node is not complete" instead of returning a sentinel. -/
theorem infer_shape_incomplete_vs_simple_bind (s : SymInfo)
    (sargs : List (Option Shape)) (skwargs : List (String × Shape))
    (c : Context) (gr : GradReq) (kwargs : List (String × NArray))
    (hform : ¬(sargs.length ≠ 0 ∧ skwargs.length ≠ 0)) :
    Symbol.infer_shape .incomplete sargs skwargs = .ok none ∧
    Symbol.simple_bind s .incomplete c gr kwargs =
      .error (.valueError "Input node is not complete") := by
  constructor
  · unfold Symbol.infer_shape
    rw [if_neg hform]
  · rfl

theorem infer_shape_incomplete_vs_simple_bind_witness :
    Symbol.infer_shape .incomplete [] [("a", [2])] = .ok none ∧
    Symbol.simple_bind ⟨["a", "b"], []⟩ .incomplete ⟨1, 0⟩ (.str "write")
        [("a", ⟨[2]⟩)] =
      .error (.valueError "Input node is not complete") :=
  infer_shape_incomplete_vs_simple_bind ⟨["a", "b"], []⟩ [] [("a", [2])]
    ⟨1, 0⟩ (.str "write") [("a", ⟨[2]⟩)] (by decide)

/-- A positional storage list of the wrong length is rejected by
`_get_narray_handle` before any element is examined. -/
theorem getNArrayHandle_list_mismatch (k : String) (xs : List PyVal)
    (argNames : List String) (am : Bool) (hlen : xs.length ≠ argNames.length) :
    getNArrayHandle k (.list xs) argNames am =
      .error (.valueError ("Length of " ++ k ++ " do not match number of arguments")) := by
  simp only [getNArrayHandle]
  rw [if_pos hlen]

/-- C7: `bind` with `args` as a positional sequence whose length differs
(shorter or longer) from the number of listed arguments fails with the
ArgumentCountMismatch ValueError "Length of args do not match number of
arguments". -/
theorem bind_positional_length_mismatch (s : SymInfo) (c : Context)
    (xs : List PyVal) (argsGrad : Option NArrayInput) (gr : GradReq)
    (aux : Option NArrayInput) (hlen : xs.length ≠ s.argNames.length) :
    Symbol.bind s (.ctx c) (.list xs) argsGrad gr aux =
      .error (.valueError "Length of args do not match number of arguments") := by
  simp only [Symbol.bind]
  rw [getNArrayHandle_list_mismatch _ _ _ _ hlen]
  rfl

theorem bind_positional_length_mismatch_witness :
    Symbol.bind ⟨["a"], []⟩ (.ctx ⟨1, 0⟩) (.list []) none (.str "write") none =
      .error (.valueError "Length of args do not match number of arguments") :=
  bind_positional_length_mismatch ⟨["a"], []⟩ ⟨1, 0⟩ [] none (.str "write")
    none (by decide)

/-- C10: `bind` with `aux_states` omitted (None) behaves exactly as with an
empty positional sequence: when the argument and gradient storage resolve,
it fails with the count-mismatch ValueError whenever the symbol has
auxiliary states, and completes whenever it has none (and `grad_req`
resolves). -/
theorem bind_aux_none_defaults_to_empty (s : SymInfo) (c : Context)
    (args : NArrayInput) (argsGrad : Option NArrayInput) (gr : GradReq)
    (ha hg : List (Option NArray))
    (h1 : getNArrayHandle "args" args s.argNames false = .ok ha)
    (h2 : resolveArgsGrad s.argNames args.len argsGrad = .ok hg) :
    Symbol.bind s (.ctx c) args argsGrad gr none =
      Symbol.bind s (.ctx c) args argsGrad gr (some (.list [])) ∧
    (s.auxNames ≠ [] →
      Symbol.bind s (.ctx c) args argsGrad gr none =
        .error (.valueError "Length of aux_states do not match number of arguments")) ∧
    (s.auxNames = [] → ∀ rq, resolveGradReq s.argNames gr = .ok rq →
      ∃ ex, Symbol.bind s (.ctx c) args argsGrad gr none = .ok ex) := by
  refine ⟨rfl, ?_, ?_⟩
  · intro hne
    have hlen : ([] : List PyVal).length ≠ s.auxNames.length := by
      simp only [List.length_nil]
      exact fun h0 => hne (List.length_eq_zero.mp h0.symm)
    simp only [Symbol.bind, Option.getD]
    rw [h1, h2, getNArrayHandle_list_mismatch _ _ _ _ hlen]
    rfl
  · intro hz rq hrq
    simp only [Symbol.bind, Option.getD]
    rw [h1, h2, hz]
    rw [show getNArrayHandle "aux_states" (.list []) ([] : List String) false =
      .ok [] from rfl]
    rw [hrq]
    exact ⟨_, rfl⟩

theorem bind_aux_none_defaults_to_empty_witness :
    (∃ ex, Symbol.bind ⟨["a"], []⟩ (.ctx ⟨1, 0⟩) (.list [.narray ⟨[2]⟩]) none
      (.str "write") none = .ok ex) :=
  (bind_aux_none_defaults_to_empty ⟨["a"], []⟩ ⟨1, 0⟩ (.list [.narray ⟨[2]⟩])
    none (.str "write") [some ⟨[2]⟩] [none] rfl rfl).2.2 rfl [1] rfl

end MxSym
